import Mathlib

/-!
Verification of the animation/simulation core of the portfolio scene:
field simulation bodies, mass-center projection and smoothing, scale
transitions, the frame scheduler, and the overlay face state machine.
All numeric state is modelled over `ℚ`; JavaScript numbers that may be
non-finite are modelled by the `JSNum` type below.
-/

/-- A 3-component vector, mirroring `THREE.Vector3` as used by the scene. -/
structure Vec3 where
  x : ℚ
  y : ℚ
  z : ℚ
deriving DecidableEq

/-- Componentwise vector addition (`Vector3.add`). -/
def Vec3.add (a b : Vec3) : Vec3 := ⟨a.x + b.x, a.y + b.y, a.z + b.z⟩

/-- Scalar multiplication (`Vector3.multiplyScalar`). -/
def Vec3.smul (a : Vec3) (k : ℚ) : Vec3 := ⟨a.x * k, a.y * k, a.z * k⟩

/-- `THREE.Vector3.lerpVectors v1 v2 t`: componentwise `v1 + (v2 - v1) * t`. -/
def Vec3.lerpVectors (v1 v2 : Vec3) (t : ℚ) : Vec3 :=
  ⟨v1.x + (v2.x - v1.x) * t, v1.y + (v2.y - v1.y) * t, v1.z + (v2.z - v1.z) * t⟩

/-- Cubic ease-out used by `expandBlob`/`resetBlob`: `1 - (1 - p)^3`. -/
def easeOutCubic (p : ℚ) : ℚ := 1 - (1 - p) ^ 3

/-!
## Transition controller (`expandBlob` / `resetBlob` in `scene.js`)

Each call to `expandBlob`/`resetBlob` captures the current scale, a target
scale, the current clock time and a duration, then runs a self-rescheduling
`requestAnimationFrame` closure.  The closure samples
`progress = min ((now - startTime) / duration) 1`, applies the cubic
ease-out, writes `effect.scale` via `lerpVectors`, and either reschedules
itself (`progress < 1`) or fires its completion callback once and stops.
Nothing cancels a previously started closure, so we model the set of
in-flight closures as a list ordered by their `requestAnimationFrame`
registration order (the order the browser runs them in a frame).
-/

/-- One in-flight `animateExpansion`/`animateReset` closure: the values it
captured at creation plus an identifier for its completion callback. -/
structure Transition where
  tid : ℕ
  startScale : Vec3
  targetScale : Vec3
  startTime : ℚ
  duration : ℚ
deriving DecidableEq

/-- The `min ((now - startTime) / duration) 1` computed by the closure. -/
def Transition.progress (t : Transition) (now : ℚ) : ℚ :=
  min ((now - t.startTime) / t.duration) 1

/-- Scene state relevant to the scale transitions: the current
`effect.scale`, the in-flight transition closures in registration order,
and the completion callbacks invoked so far (in invocation order). -/
structure SceneAnim where
  scale : Vec3
  running : List Transition
  fired : List ℕ
deriving DecidableEq

/-- One invocation of a transition closure on the scene state: sample the
eased progress, write the scale; below full progress the closure stays
scheduled (returned `Bool` is `true`), otherwise it fires its completion
callback and stops. -/
def sampleTransition (now : ℚ) (t : Transition) (s : SceneAnim) : SceneAnim × Bool :=
  let p := t.progress now
  let sc := Vec3.lerpVectors t.startScale t.targetScale (easeOutCubic p)
  if p < 1 then ({ s with scale := sc }, true)
  else ({ s with scale := sc, fired := s.fired ++ [t.tid] }, false)

/-- One animation frame: run every scheduled closure in registration
order; closures that have not completed re-register for the next frame. -/
def tickFrame (now : ℚ) (s : SceneAnim) : SceneAnim :=
  s.running.foldl
    (fun acc t =>
      let (s', again) := sampleTransition now t acc
      if again then { s' with running := acc.running ++ [t] } else s')
    { s with running := [] }

/-- `expandBlob`/`resetBlob` body: capture the current scale as start, the
given target and duration and the current clock time, then invoke the new
closure once synchronously (it registers itself for the next frame while
its progress is below 1).  Older closures are left untouched. -/
def startTransitionTo (target : Vec3) (dur : ℚ) (id : ℕ) (now : ℚ) (s : SceneAnim) : SceneAnim :=
  let t : Transition := ⟨id, s.scale, target, now, dur⟩
  let (s', again) := sampleTransition now t s
  if again then { s' with running := s.running ++ [t] } else s'

/-- `expandBlob`: duration 1.0 s, target scale `(40, 40, 0.5)`. -/
def expandBlob (id : ℕ) (now : ℚ) (s : SceneAnim) : SceneAnim :=
  startTransitionTo ⟨40, 40, 1/2⟩ 1 id now s

/-- `resetBlob`: duration 1.0 s, target scale `(5, 5, 0.5)`. -/
def resetBlob (id : ℕ) (now : ℚ) (s : SceneAnim) : SceneAnim :=
  startTransitionTo ⟨5, 5, 1/2⟩ 1 id now s

/-- Initial scene state: `effect.scale.set(5.0, 5.0, 0.5)`, no transition
in flight, no callback fired. -/
def sceneInit : SceneAnim := ⟨⟨5, 5, 1/2⟩, [], []⟩

/-- Starting a transition with a positive duration leaves the scale, the
older in-flight transitions and the fired-callback log untouched; it only
appends the newly created transition to the schedule (its synchronous
first sample sees progress `0`). -/
lemma startTransitionTo_eq (s : SceneAnim) (target : Vec3) (dur : ℚ) (id : ℕ) (now : ℚ)
    (_hdur : 0 < dur) :
    startTransitionTo target dur id now s =
      { s with running := s.running ++ [⟨id, s.scale, target, now, dur⟩] } := by
  unfold startTransitionTo sampleTransition
  simp [Transition.progress, easeOutCubic, Vec3.lerpVectors]

/-- A frame with no scheduled closure changes nothing. -/
lemma tickFrame_of_running_nil (now : ℚ) (s : SceneAnim) (h : s.running = []) :
    tickFrame now s = s := by
  cases s
  simp only at h
  subst h
  rfl

/-- A frame with exactly one scheduled closure writes the eased
interpolation of that transition into the scale. -/
lemma tickFrame_single_scale (now : ℚ) (sc : Vec3) (fired : List ℕ) (t : Transition) :
    (tickFrame now ⟨sc, [t], fired⟩).scale =
      Vec3.lerpVectors t.startScale t.targetScale (easeOutCubic (t.progress now)) := by
  unfold tickFrame sampleTransition
  by_cases h : t.progress now < 1 <;> simp [h]

/-- Clamped progress is at most `1`. -/
lemma progress_le_one (t : Transition) (now : ℚ) : t.progress now ≤ 1 :=
  min_le_right _ _

/-- Clamped progress is nonnegative once the clock has passed the
transition's start time. -/
lemma progress_nonneg (t : Transition) (now : ℚ) (h1 : t.startTime ≤ now)
    (h2 : 0 < t.duration) : 0 ≤ t.progress now :=
  le_min (div_nonneg (by linarith) h2.le) zero_le_one

/-- The expand transition created by `expandBlob` at clock time `0` from
the initial scale. -/
def tExpand : Transition := ⟨0, ⟨5, 5, 1/2⟩, ⟨40, 40, 1/2⟩, 0, 1⟩

/-! Overlapping-transition scenario: expand at time `0`, tick the frame at
time `1/2`, start the reset at time `1/2` while the expand is still in
flight, then tick at time `3/2` when both have reached full progress. -/

def sOv1 : SceneAnim := expandBlob 0 0 sceneInit
def sOv2 : SceneAnim := tickFrame (1/2) sOv1
def sOv3 : SceneAnim := resetBlob 1 (1/2) sOv2
def sOv4 : SceneAnim := tickFrame (3/2) sOv3

lemma sOv1_eq : sOv1 = ⟨⟨5, 5, 1/2⟩, [tExpand], []⟩ := by
  rw [sOv1, expandBlob, startTransitionTo_eq _ _ _ _ _ one_pos]
  rfl

lemma sOv2_eq : sOv2 = ⟨⟨285/8, 285/8, 1/2⟩, [tExpand], []⟩ := by
  rw [sOv2, sOv1_eq, tickFrame, tExpand]
  norm_num [sampleTransition, Transition.progress, easeOutCubic, Vec3.lerpVectors]

def tReset : Transition := ⟨1, ⟨285/8, 285/8, 1/2⟩, ⟨5, 5, 1/2⟩, 1/2, 1⟩

lemma sOv3_eq : sOv3 = ⟨⟨285/8, 285/8, 1/2⟩, [tExpand, tReset], []⟩ := by
  rw [sOv3, sOv2_eq, resetBlob, startTransitionTo_eq _ _ _ _ _ one_pos]
  rfl

lemma sOv4_eq : sOv4 = ⟨⟨5, 5, 1/2⟩, [], [0, 1]⟩ := by
  rw [sOv4, sOv3_eq, tickFrame, tExpand, tReset]
  norm_num [sampleTransition, Transition.progress, easeOutCubic, Vec3.lerpVectors]

/-! Round-trip scenario: expand at time `0`, tick at time `1` (full
progress), reset at time `1`, tick at time `2` (full progress). -/

def sRt2 : SceneAnim := tickFrame 1 sOv1
def sRt3 : SceneAnim := resetBlob 1 1 sRt2
def sRt4 : SceneAnim := tickFrame 2 sRt3

lemma sRt2_eq : sRt2 = ⟨⟨40, 40, 1/2⟩, [], [0]⟩ := by
  rw [sRt2, sOv1_eq, tickFrame, tExpand]
  norm_num [sampleTransition, Transition.progress, easeOutCubic, Vec3.lerpVectors]

lemma sRt3_eq : sRt3 = ⟨⟨40, 40, 1/2⟩, [⟨1, ⟨40, 40, 1/2⟩, ⟨5, 5, 1/2⟩, 1, 1⟩], [0]⟩ := by
  rw [sRt3, sRt2_eq, resetBlob, startTransitionTo_eq _ _ _ _ _ one_pos]
  rfl

lemma sRt4_eq : sRt4 = ⟨⟨5, 5, 1/2⟩, [], [0, 1]⟩ := by
  rw [sRt4, sRt3_eq, tickFrame]
  norm_num [sampleTransition, Transition.progress, easeOutCubic, Vec3.lerpVectors]

/-!
## Mass-center smoothing (`calculateMassCenter` in `scene.js`)

The projector keeps a smoothed screen position `(smoothedScreenX,
smoothedScreenY)` and updates it by exponential smoothing with factor
`0.12` whenever the freshly projected target passes the validity guard.
JavaScript numbers that may be `NaN` or `±Infinity` are modelled by
`JSNum`.
-/

/-- One exponential-smoothing update:
`smoothed += (target - smoothed) * 0.12`. -/
def smoothStep (s target : ℚ) : ℚ := s + (target - s) * (12/100)

/-- `n` consecutive smoothing updates toward a constant target. -/
def smoothIter : ℕ → ℚ → ℚ → ℚ
  | 0, s, _ => s
  | n + 1, s, target => smoothIter n (smoothStep s target) target

/-- Both axes of the smoothed point updated toward a constant raw point. -/
def smoothStep2 (p raw : ℚ × ℚ) : ℚ × ℚ := (smoothStep p.1 raw.1, smoothStep p.2 raw.2)

/-- `n` frames of the two-axis smoothing update. -/
def smoothIter2 : ℕ → ℚ × ℚ → ℚ × ℚ → ℚ × ℚ
  | 0, p, _ => p
  | n + 1, p, raw => smoothIter2 n (smoothStep2 p raw) raw

/-- Residual of the smoothing recurrence in closed form: each update
scales the distance to the target by `1 - 0.12 = 22/25`. -/
lemma smoothIter_closed (n : ℕ) (s target : ℚ) :
    target - smoothIter n s target = (target - s) * (22/25) ^ n := by
  induction n generalizing s with
  | zero => simp [smoothIter]
  | succ n ih =>
    rw [smoothIter, ih, smoothStep]
    ring

/-- The two-axis iteration is the per-axis iteration on each coordinate. -/
lemma smoothIter2_eq (n : ℕ) (p raw : ℚ × ℚ) :
    smoothIter2 n p raw = (smoothIter n p.1 raw.1, smoothIter n p.2 raw.2) := by
  induction n generalizing p with
  | zero => simp [smoothIter2, smoothIter]
  | succ n ih => rw [smoothIter2, ih, smoothStep2, smoothIter, smoothIter]

/-- A single smoothing update never moves below the minimum of the
previous value and the target. -/
lemma smoothStep_ge_min (s target : ℚ) : min s target ≤ smoothStep s target := by
  rw [smoothStep]
  rcases le_total s target with h | h
  · rw [min_eq_left h]
    linarith
  · rw [min_eq_right h]
    linarith

/-- A single smoothing update never moves above the maximum of the
previous value and the target. -/
lemma smoothStep_le_max (s target : ℚ) : smoothStep s target ≤ max s target := by
  rw [smoothStep]
  rcases le_total s target with h | h
  · rw [max_eq_right h]
    linarith
  · rw [max_eq_left h]
    linarith

/-- A JavaScript `number` as far as finiteness is concerned: either a
finite value (modelled as a rational) or one of `NaN`, `+Infinity`,
`-Infinity`. -/
inductive JSNum where
  | fin : ℚ → JSNum
  | nan : JSNum
  | posInf : JSNum
  | negInf : JSNum
deriving DecidableEq

/-- JavaScript's `isFinite`. -/
def JSNum.isFinite : JSNum → Bool
  | .fin _ => true
  | _ => false

/-- JavaScript unary minus on a possibly non-finite number. -/
def JSNum.neg : JSNum → JSNum
  | .fin q => .fin (-q)
  | .nan => .nan
  | .posInf => .negInf
  | .negInf => .posInf

/-- JavaScript multiplication of a possibly non-finite number by a finite
constant: `NaN` absorbs, an infinity keeps or flips its sign for a nonzero
constant and becomes `NaN` when multiplied by `0`. -/
def JSNum.mulQ : JSNum → ℚ → JSNum
  | .fin p, q => .fin (p * q)
  | .nan, _ => .nan
  | .posInf, q => if 0 < q then .posInf else if q < 0 then .negInf else .nan
  | .negInf, q => if 0 < q then .negInf else if q < 0 then .posInf else .nan

/-- The guarded smoothed-position update at the end of
`calculateMassCenter`: the projected screen target `(tX, tY)` is rejected
— leaving the smoothed position untouched — when either coordinate is
non-finite, when it lies outside the viewport `[0, w] × [0, h]`, or when
no face manager is attached; otherwise both axes are smoothed with factor
`0.12` toward it. -/
def screenUpdate (tX tY : JSNum) (w h : ℚ) (hasFace : Bool) (sx sy : ℚ) : ℚ × ℚ :=
  match tX, tY with
  | .fin x, .fin y =>
    if x < 0 ∨ w < x ∨ y < 0 ∨ h < y ∨ hasFace = false then (sx, sy)
    else (smoothStep sx x, smoothStep sy y)
  | _, _ => (sx, sy)

/-!
## Field simulation bodies (`initObjects` / `updateBlobs` in `scene.js`)

A body is `{ pos, vel, color, strength, subtract }`.  Colors are modelled
by their index in the seven-entry palette.  `Math.random()` draws are
supplied as oracle arguments (rationals in `[0, 1)`), and `Math.sin` /
`Math.cos` as oracle functions, since the update is otherwise pure
arithmetic.
-/

/-- One procedural body contributing to the implicit field. -/
structure Blob where
  pos : Vec3
  vel : Vec3
  color : ℕ
  strength : ℚ
  subtract : ℚ
deriving DecidableEq

/-- `numBlobs = 8`: the fixed body population. -/
def numBlobs : ℕ := 8

/-- One body as created in the `initObjects` loop for index `i`: position
and velocity drawn from the random oracle (draws are numbered in the order
the source consumes them), color `colors[i % colors.length]` with a
seven-color palette, strength `0.3 + random * 0.55`, subtract `10`. -/
def initBlob (rand : ℕ → ℚ) (i : ℕ) : Blob :=
  { pos := ⟨(rand (5*i) - 1/2) * (1/2), (rand (5*i+1) - 1/2) * (1/2), 0⟩,
    vel := ⟨(rand (5*i+2) - 1/2) * (1/100), (rand (5*i+3) - 1/2) * (1/100), 0⟩,
    color := i % 7,
    strength := 3/10 + rand (5*i+4) * (11/20),
    subtract := 10 }

/-- The body list built by `initObjects`. -/
def initBlobs (rand : ℕ → ℚ) : List Blob := (List.range numBlobs).map (initBlob rand)

/-- Per-body physics update from `updateBlobs`, translated line by line:
center attraction, damping, sine/cosine flow drive with per-index phase
offset, random jitter, then position integration with `z` pinned to `0`.
`sin`/`cos` are the oracle trigonometric functions and `r1`, `r2` the two
`Math.random()` draws of this body. -/
def updateBlob (sin cos : ℚ → ℚ) (time : ℚ) (index : ℕ) (r1 r2 : ℚ) (b : Blob) : Blob :=
  let v1 := b.vel.add (b.pos.smul (-(3/1000)))
  let v2 := v1.smul (99/100)
  let v3 : Vec3 := ⟨v2.x + sin (time * (1/4) + index) * (3/10000),
                    v2.y + cos (time * (1/4) + index) * (3/10000), v2.z⟩
  let v4 : Vec3 := ⟨v3.x + (r1 - 1/2) * (2/1000), v3.y + (r2 - 1/2) * (2/1000), v3.z⟩
  let p1 := b.pos.add v4
  { b with pos := ⟨p1.x, p1.y, 0⟩, vel := v4 }

/-- Spec step 1 — centering force: `velocity += position * (-k_center)`
with `k_center = 0.003`. -/
def centeringStep (b : Blob) : Blob :=
  { b with vel := b.vel.add (b.pos.smul (-(3/1000))) }

/-- Spec step 2 — damping: `velocity *= 0.99`. -/
def dampingStep (b : Blob) : Blob :=
  { b with vel := b.vel.smul (99/100) }

/-- Spec step 3 — periodic drive: add `sin`/`cos` of the phase
`time * 0.25 + index` (per-body index offset), scaled by `0.0003`, to
`velocity.x` and `velocity.y`. -/
def driveStep (sin cos : ℚ → ℚ) (time : ℚ) (index : ℕ) (b : Blob) : Blob :=
  { b with vel := ⟨b.vel.x + sin (time * (1/4) + index) * (3/10000),
                   b.vel.y + cos (time * (1/4) + index) * (3/10000), b.vel.z⟩ }

/-- Spec step 4 — uniform jitter `(random - 0.5) * 0.002` added to the
velocity on the x and y axes. -/
def jitterStep (r1 r2 : ℚ) (b : Blob) : Blob :=
  { b with vel := ⟨b.vel.x + (r1 - 1/2) * (2/1000), b.vel.y + (r2 - 1/2) * (2/1000), b.vel.z⟩ }

/-- Spec step 5 — integration: `position += velocity` with the
z-component pinned to the constant plane `z = 0`. -/
def integrateStep (b : Blob) : Blob :=
  let p := b.pos.add b.vel
  { b with pos := ⟨p.x, p.y, 0⟩ }

/-- The per-frame update of the whole body list starting at index `k`:
each body is updated with its own index and its own pair of random
draws. -/
def updateBlobsFrom (sin cos : ℚ → ℚ) (time : ℚ) (rand : ℕ → ℚ × ℚ) :
    ℕ → List Blob → List Blob
  | _, [] => []
  | k, b :: rest =>
    updateBlob sin cos time k (rand k).1 (rand k).2 b ::
      updateBlobsFrom sin cos time rand (k + 1) rest

/-- The `blobs.forEach` physics pass of `updateBlobs` (index starts at 0). -/
def updateBlobs (sin cos : ℚ → ℚ) (time : ℚ) (rand : ℕ → ℚ × ℚ) (blobs : List Blob) :
    List Blob :=
  updateBlobsFrom sin cos time rand 0 blobs

/-!
## Mass-center computation and projection (`calculateMassCenter`)

The weighted center of the bodies is computed in world space, divided by
the total mass only when that is positive, projected through the
perspective camera sitting at `(0, 0, 10)` (its focal factor `f` is kept
symbolic), mapped to screen pixels with the y-axis flipped, and then fed
to the guarded smoothing update.
-/

/-- `effect.position` — the marching-cubes object sits at the origin. -/
def effectPosition : Vec3 := ⟨0, 0, 0⟩

/-- World-space position of a body: `addBall` coordinates
`0.5 + pos * 0.5` mapped back through the effect's scale and offset by the
effect's position (z contribution is `0`). -/
def blobWorld (scale : Vec3) (b : Blob) : Vec3 :=
  ⟨((1/2 + b.pos.x * (1/2)) - 1/2) * scale.x + effectPosition.x,
   ((1/2 + b.pos.y * (1/2)) - 1/2) * scale.y + effectPosition.y,
   0 + effectPosition.z⟩

/-- Strength-weighted sum of world positions and the total mass, folded
over the body list as in the `forEach`. -/
def massTotals (scale : Vec3) (blobs : List Blob) : Vec3 × ℚ :=
  blobs.foldl
    (fun acc b =>
      let w := blobWorld scale b
      (⟨acc.1.x + w.x * b.strength, acc.1.y + w.y * b.strength, acc.1.z + w.z * b.strength⟩,
       acc.2 + b.strength))
    (⟨0, 0, 0⟩, 0)

/-- The mass-center vector: the weighted sum is divided by the total mass
only when `0 < totalMass` (`divideScalar` guarded by the source). -/
def massCenterVector (scale : Vec3) (blobs : List Blob) : Vec3 :=
  let t := massTotals scale blobs
  if 0 < t.2 then ⟨t.1.x / t.2, t.1.y / t.2, t.1.z / t.2⟩ else t.1

/-- Projection of a world point through the scene camera (perspective
camera at `(0, 0, 10)` looking down the negative z-axis): normalized
device coordinates with symbolic focal factor `f` and aspect `w / h`. -/
def projectCam (f w h : ℚ) (p : Vec3) : ℚ × ℚ :=
  ((f / (w / h)) * p.x / (10 - p.z), f * p.y / (10 - p.z))

/-- The whole of `calculateMassCenter`: early-out on an empty body list,
weighted center with guarded division, camera projection, NDC-to-pixel
mapping with flipped y, then the guarded smoothing update of
`(smoothedScreenX, smoothedScreenY)`. -/
def calculateMassCenter (f w h : ℚ) (hasFace : Bool) (scale : Vec3) (blobs : List Blob)
    (sx sy : ℚ) : ℚ × ℚ :=
  if blobs.length = 0 then (sx, sy)
  else
    let mc := massCenterVector scale blobs
    let ndc := projectCam f w h mc
    let tX := (ndc.1 * (1/2) + 1/2) * w
    let tY := (-ndc.2 * (1/2) + 1/2) * h
    screenUpdate (.fin tX) (.fin tY) w h hasFace sx sy

/-- A body whose strength (mass) is zero, as used in the degenerate
zero-total-mass configuration. -/
def zeroBlob : Blob := ⟨⟨1/10, 1/5, 0⟩, ⟨0, 0, 0⟩, 0, 0, 10⟩

/-!
## Frame scheduler (`pause` / `resume` / `animate` in `scene.js`)

`SchedState` tracks `isPaused` and `animationFrameId` together with the
browser-side bookkeeping: the list of outstanding `requestAnimationFrame`
callbacks (in registration order) and a counter from which fresh handles
are drawn.  `requestAnimationFrame` appends a fresh handle,
`cancelAnimationFrame` removes one, and firing a frame pops the callback
before running `animate`.
-/

/-- Scheduler state plus the browser's callback queue. -/
structure SchedState where
  isPaused : Bool
  animationFrameId : Option ℕ
  nextHandle : ℕ
  pending : List ℕ
deriving DecidableEq

/-- The `animate` loop body as far as scheduling is concerned: bail out
when paused, otherwise register itself for the next frame and record the
returned handle. -/
def schedAnimate (s : SchedState) : SchedState :=
  if s.isPaused then s
  else
    { s with
      animationFrameId := some s.nextHandle,
      pending := s.pending ++ [s.nextHandle],
      nextHandle := s.nextHandle + 1 }

/-- `pause()`: set the flag, and only when a frame handle is held cancel
it and null it out. -/
def schedPause (s : SchedState) : SchedState :=
  let s1 : SchedState := { s with isPaused := true }
  match s1.animationFrameId with
  | some h => { s1 with pending := s1.pending.erase h, animationFrameId := none }
  | none => s1

/-- `resume()`: only when paused, clear the flag and re-enter `animate`. -/
def schedResume (s : SchedState) : SchedState :=
  if s.isPaused then schedAnimate { s with isPaused := false } else s

/-- The browser firing the next outstanding animation-frame callback: the
callback is removed from the queue, then the registered `animate` runs. -/
def schedFire (s : SchedState) : SchedState :=
  match s.pending with
  | [] => s
  | _ :: rest => schedAnimate { s with pending := rest }

/-- The events that can hit the scheduler. -/
inductive SchedAct where
  | pauseA : SchedAct
  | resumeA : SchedAct
  | fireA : SchedAct
deriving DecidableEq

/-- Apply one scheduler event. -/
def applySchedAct : SchedAct → SchedState → SchedState
  | .pauseA, s => schedPause s
  | .resumeA, s => schedResume s
  | .fireA, s => schedFire s

/-- Run a sequence of scheduler events. -/
def runSchedActs (acts : List SchedAct) (s : SchedState) : SchedState :=
  acts.foldl (fun t a => applySchedAct a t) s

/-- Constructor end state: `isPaused = false`, no handle, then the initial
synchronous `animate()` call. -/
def schedInit : SchedState := schedAnimate ⟨false, none, 0, []⟩

/-- Scheduler invariant: the browser queue holds exactly the callback
recorded in `animationFrameId`, and no callback is outstanding while
paused. -/
def SchedInv (s : SchedState) : Prop :=
  s.pending = s.animationFrameId.toList ∧ (s.isPaused = true → s.animationFrameId = none)

lemma schedInv_init : SchedInv schedInit := by
  constructor <;> simp [schedInit, schedAnimate]

lemma schedInv_pause {s : SchedState} (h : SchedInv s) : SchedInv (schedPause s) := by
  obtain ⟨h1, _⟩ := h
  cases hf : s.animationFrameId with
  | none =>
    constructor <;> simp_all [schedPause]
  | some k =>
    constructor <;> simp_all [schedPause]

lemma schedInv_resume {s : SchedState} (h : SchedInv s) : SchedInv (schedResume s) := by
  obtain ⟨h1, h2⟩ := h
  by_cases hp : s.isPaused
  · have hf : s.animationFrameId = none := h2 hp
    constructor <;> simp_all [schedResume, schedAnimate, hp, hf]
  · simp only [Bool.not_eq_true] at hp
    constructor <;> simp_all [schedResume, hp]

lemma schedInv_fire {s : SchedState} (h : SchedInv s) : SchedInv (schedFire s) := by
  obtain ⟨h1, h2⟩ := h
  cases hq : s.pending with
  | nil => constructor <;> simp_all [schedFire]
  | cons k rest =>
    have hp : s.isPaused = false := by
      cases hpp : s.isPaused
      · rfl
      · rw [h2 hpp] at h1
        simp [hq] at h1
    cases hf : s.animationFrameId with
    | none => simp [hf, Option.toList, hq] at h1
    | some m =>
      rw [hf, Option.toList] at h1
      rw [hq] at h1
      cases h1
      constructor <;> simp_all [schedFire, schedAnimate, hp]

lemma schedInv_run (acts : List SchedAct) {s : SchedState} (h : SchedInv s) :
    SchedInv (runSchedActs acts s) := by
  induction acts generalizing s with
  | nil => exact h
  | cons a rest ih =>
    cases a
    · exact ih (schedInv_pause h)
    · exact ih (schedInv_resume h)
    · exact ih (schedInv_fire h)

/-- Under the invariant the queue length is at most one. -/
lemma schedInv_pending_le_one {s : SchedState} (h : SchedInv s) : s.pending.length ≤ 1 := by
  rw [h.1]
  cases s.animationFrameId <;> simp [Option.toList]

/-- `pause` is idempotent on every state: the second call finds the frame
handle already `null` and cancels nothing. -/
lemma schedPause_idem (s : SchedState) : schedPause (schedPause s) = schedPause s := by
  cases hf : s.animationFrameId <;> simp [schedPause, hf]

/-- `resume` on a running scheduler is a no-op. -/
lemma schedResume_of_running (s : SchedState) (h : s.isPaused = false) :
    schedResume s = s := by
  simp [schedResume, h]

/-- Double pause then resume on any state satisfying the invariant leaves
exactly one outstanding frame callback. -/
lemma sched_pause_pause_resume {s : SchedState} (h : SchedInv s) :
    (schedResume (schedPause (schedPause s))).pending.length = 1 := by
  have h1 := h.1
  cases hf : s.animationFrameId with
  | none =>
    have : s.pending = [] := by rw [h1, hf]; rfl
    simp [schedPause, schedResume, schedAnimate, hf, this]
  | some k =>
    have : s.pending = [k] := by rw [h1, hf]; rfl
    simp [schedPause, schedResume, schedAnimate, hf, this]

/-!
## Overlay parallax (`updateMousePosition` in `faceManager.js`)

The handler stores the (normalized) pointer coordinates unconditionally
and retargets one `gsap` tween per face element; we record each tween's
target offset.  The vertical axis is reflected, the per-element
multipliers are nose `1.0`, mouth `0.6`, eyes `0.3`, and the maximum
offset is `15` pixels.  There is no finiteness validation on this path.
-/

/-- Parallax state: stored pointer position and the current tween target
offsets of the four face elements. -/
structure FaceParallax where
  mouseX : JSNum
  mouseY : JSNum
  noseX : JSNum
  noseY : JSNum
  mouthX : JSNum
  mouthY : JSNum
  leftEyeX : JSNum
  leftEyeY : JSNum
  rightEyeX : JSNum
  rightEyeY : JSNum
deriving DecidableEq

/-- `updateMousePosition(x, y)` translated directly: store the incoming
coordinates, reflect y, and set every element's tween target to
`mouse * maxOffset * multiplier`. -/
def updateMousePosition (x y : JSNum) (_s : FaceParallax) : FaceParallax :=
  let reflectedY := y.neg
  { mouseX := x,
    mouseY := y,
    noseX := (x.mulQ 15).mulQ 1,
    noseY := (reflectedY.mulQ 15).mulQ 1,
    mouthX := (x.mulQ 15).mulQ (3/5),
    mouthY := (reflectedY.mulQ 15).mulQ (3/5),
    leftEyeX := (x.mulQ 15).mulQ (3/10),
    leftEyeY := (reflectedY.mulQ 15).mulQ (3/10),
    rightEyeX := (x.mulQ 15).mulQ (3/10),
    rightEyeY := (reflectedY.mulQ 15).mulQ (3/10) }

/-- Face parallax state with every offset and the stored pointer at `0`
(the initial SVG layout). -/
def faceParallaxInit : FaceParallax :=
  ⟨.fin 0, .fin 0, .fin 0, .fin 0, .fin 0, .fin 0, .fin 0, .fin 0, .fin 0, .fin 0⟩

/-- The state after a valid pointer input `(1/2, 1/2)`. -/
def faceParallaxValid : FaceParallax :=
  updateMousePosition (.fin (1/2)) (.fin (1/2)) faceParallaxInit

/-!
## Expression / talking state machine (`setExpression`,
`startTalkingAnimation` in `faceManager.js`)

Timelines are modelled by handles; starting an animation allocates a
fresh handle and bumps the `animStarts` call counter (the observable
"animation start" stub of the spec).
-/

/-- Discrete expression and talking state of the overlay face. -/
structure FaceExprState where
  currentExpression : String
  expressionTimeline : Option ℕ
  talkingTimeline : Option ℕ
  animStarts : ℕ
  nextHandle : ℕ
deriving DecidableEq

/-- `setExpression(type)`: early-out when the expression is unchanged;
otherwise record the new expression, kill any previous expression
timeline, allocate a fresh one and start the expression's animation. -/
def setExpression (ty : String) (s : FaceExprState) : FaceExprState :=
  if s.currentExpression = ty then s
  else
    { currentExpression := ty,
      expressionTimeline := some s.nextHandle,
      talkingTimeline := s.talkingTimeline,
      animStarts := s.animStarts + 1,
      nextHandle := s.nextHandle + 1 }

/-- `startTalkingAnimation()`: early-out while a talking timeline exists;
otherwise allocate the repeating timeline and start it. -/
def startTalkingAnimation (s : FaceExprState) : FaceExprState :=
  if s.talkingTimeline.isSome then s
  else
    { s with
      talkingTimeline := some s.nextHandle,
      animStarts := s.animStarts + 1,
      nextHandle := s.nextHandle + 1 }

/-- `stopTalkingAnimation()`: kill the loop when present and ease the
mouth back (one animation start on the mouth tween). -/
def stopTalkingAnimation (s : FaceExprState) : FaceExprState :=
  { s with talkingTimeline := none, animStarts := s.animStarts + 1 }

/-!
## Claim theorems
-/

/-- Shared evaluation: the degenerate zero-strength configuration still
reaches the smoothing update and moves the smoothed position from
`(0, 0)` to `(60, 60)`. -/
lemma calcMassCenterZero_eq :
    calculateMassCenter 2 1000 1000 true ⟨5, 5, 1/2⟩ [zeroBlob] 0 0 = (60, 60) := by
  norm_num [calculateMassCenter, massCenterVector, massTotals, blobWorld, effectPosition,
    zeroBlob, projectCam, screenUpdate, smoothStep]

/-- C1, counterexample: start an expand at time 0, advance to time 1/2,
start a reset (the newer transition) at time 1/2 — no callback has fired
yet — and advance to time 3/2: the older expand's completion callback
(id 0) is invoked even though the reset superseded it, so the older
transition's callback is not cancelled by starting a new one. -/
theorem claim_C1_counterexample :
    sOv3.fired = [] ∧ sOv4.fired = [0, 1] := by
  rw [sOv3_eq, sOv4_eq]
  exact ⟨rfl, rfl⟩

/-- C1, amended: starting a new transition does not cancel an in-flight
one — it only appends a new closure, firing nothing and leaving older
closures scheduled; in the overlapping scenario both completion callbacks
are invoked exactly once each (the older one after the newer transition
started) and after both complete further frames change nothing. -/
theorem claim_C1 :
    (∀ (s : SceneAnim) (target : Vec3) (dur : ℚ) (id : ℕ) (now : ℚ), 0 < dur →
      startTransitionTo target dur id now s =
        { s with running := s.running ++ [⟨id, s.scale, target, now, dur⟩] }) ∧
    sOv4.fired.count 0 = 1 ∧ sOv4.fired.count 1 = 1 ∧
    (∀ now : ℚ, tickFrame now sOv4 = sOv4) := by
  refine ⟨fun s target dur id now h => startTransitionTo_eq s target dur id now h, ?_, ?_, ?_⟩
  · rw [sOv4_eq]; rfl
  · rw [sOv4_eq]; rfl
  · intro now
    exact tickFrame_of_running_nil now sOv4 (by rw [sOv4_eq])

/-- C1 witness: the amended start-behaviour at a concrete input. -/
theorem claim_C1_witness :
    (0 : ℚ) < 1 ∧
    startTransitionTo ⟨40, 40, 1/2⟩ 1 0 0 sceneInit =
      { sceneInit with running := sceneInit.running ++ [⟨0, sceneInit.scale, ⟨40, 40, 1/2⟩, 0, 1⟩] } :=
  ⟨one_pos, claim_C1.1 sceneInit ⟨40, 40, 1/2⟩ 1 0 0 one_pos⟩

/-- C2: a frame samples a running transition at its clamped progress
(which lies in `[0, 1]` once the clock passed the start time) through the
cubic ease-out `1 - (1 - p)^3`; in the round-trip scenario the expand
reaches exactly `(40, 40, 0.5)` at full progress, the subsequent reset
returns the scale to exactly `(5, 5, 0.5)`, and each completion callback
fires exactly once (later frames fire nothing further). -/
theorem claim_C2 :
    (∀ (t : Transition) (sc : Vec3) (fl : List ℕ) (now : ℚ),
      t.startTime ≤ now → 0 < t.duration →
      0 ≤ t.progress now ∧ t.progress now ≤ 1 ∧
      (tickFrame now ⟨sc, [t], fl⟩).scale =
        Vec3.lerpVectors t.startScale t.targetScale (1 - (1 - t.progress now) ^ 3)) ∧
    sRt2.scale = ⟨40, 40, 1/2⟩ ∧
    sRt4.scale = ⟨5, 5, 1/2⟩ ∧
    sRt4.fired.count 0 = 1 ∧ sRt4.fired.count 1 = 1 ∧
    (∀ now : ℚ, tickFrame now sRt4 = sRt4) := by
  refine ⟨fun t sc fl now h1 h2 =>
    ⟨progress_nonneg t now h1 h2, progress_le_one t now, ?_⟩, ?_, ?_, ?_, ?_, ?_⟩
  · rw [tickFrame_single_scale]
    rfl
  · rw [sRt2_eq]
  · rw [sRt4_eq]
  · rw [sRt4_eq]; rfl
  · rw [sRt4_eq]; rfl
  · intro now
    exact tickFrame_of_running_nil now sRt4 (by rw [sRt4_eq])

/-- C2 witness: the sampling formula and progress bounds at the concrete
expand transition sampled at time 1. -/
theorem claim_C2_witness :
    0 ≤ tExpand.progress 1 ∧ tExpand.progress 1 ≤ 1 ∧
    (tickFrame 1 ⟨⟨5, 5, 1/2⟩, [tExpand], []⟩).scale =
      Vec3.lerpVectors tExpand.startScale tExpand.targetScale
        (1 - (1 - tExpand.progress 1) ^ 3) :=
  claim_C2.1 tExpand ⟨5, 5, 1/2⟩ [] 1 (by norm_num [tExpand]) (by norm_num [tExpand])

/-- C3: from `(0, 0)` toward a constant raw target `(500, 500)` with
factor `0.12`, fifty smoothing frames land within one unit of the target
on each axis, and a single update never overshoots: on each axis the new
value stays between the previous value and the raw target. -/
theorem claim_C3 :
    |(smoothIter2 50 (0, 0) (500, 500)).1 - 500| < 1 ∧
    |(smoothIter2 50 (0, 0) (500, 500)).2 - 500| < 1 ∧
    (∀ p raw : ℚ × ℚ,
      min p.1 raw.1 ≤ (smoothStep2 p raw).1 ∧ (smoothStep2 p raw).1 ≤ max p.1 raw.1 ∧
      min p.2 raw.2 ≤ (smoothStep2 p raw).2 ∧ (smoothStep2 p raw).2 ≤ max p.2 raw.2) := by
  have key : (500 : ℚ) * (22/25) ^ 50 < 1 := by
    rw [div_pow, ← mul_div_assoc, div_lt_one (by positivity)]
    norm_num
  have hresid : (500 : ℚ) - smoothIter 50 0 500 = 500 * (22/25) ^ 50 := by
    simpa using smoothIter_closed 50 0 500
  have habs : |smoothIter 50 0 500 - (500 : ℚ)| < 1 := by
    rw [abs_sub_comm, hresid, abs_of_nonneg (by positivity)]
    exact key
  refine ⟨?_, ?_, fun p raw =>
    ⟨smoothStep_ge_min p.1 raw.1, smoothStep_le_max p.1 raw.1,
     smoothStep_ge_min p.2 raw.2, smoothStep_le_max p.2 raw.2⟩⟩
  · rw [smoothIter2_eq]
    exact habs
  · rw [smoothIter2_eq]
    exact habs

/-- C4: with a face manager attached, the smoothed screen position is left
untouched whenever the projected screen target is non-finite on either
axis or lies outside `[0, width] × [0, height]`; otherwise both axes are
updated by exponential smoothing with factor `0.12`. -/
theorem claim_C4 :
    ∀ (tX tY : JSNum) (w h sx sy : ℚ),
      ((tX.isFinite = false ∨ tY.isFinite = false) →
        screenUpdate tX tY w h true sx sy = (sx, sy)) ∧
      (∀ x y : ℚ, tX = .fin x → tY = .fin y →
        ((x < 0 ∨ w < x ∨ y < 0 ∨ h < y) →
          screenUpdate tX tY w h true sx sy = (sx, sy)) ∧
        (0 ≤ x → x ≤ w → 0 ≤ y → y ≤ h →
          screenUpdate tX tY w h true sx sy = (smoothStep sx x, smoothStep sy y))) := by
  intro tX tY w h sx sy
  constructor
  · intro hnf
    cases tX <;> cases tY <;> first
      | rfl
      | (exfalso; rcases hnf with hnf | hnf <;> simp [JSNum.isFinite] at hnf)
  · intro x y hx hy
    subst hx
    subst hy
    constructor
    · intro hout
      rw [screenUpdate]
      rw [if_pos]
      rcases hout with h1 | h1 | h1 | h1
      · exact Or.inl h1
      · exact Or.inr (Or.inl h1)
      · exact Or.inr (Or.inr (Or.inl h1))
      · exact Or.inr (Or.inr (Or.inr (Or.inl h1)))
    · intro h1 h2 h3 h4
      rw [screenUpdate]
      rw [if_neg]
      rintro (hc | hc | hc | hc | hc)
      · linarith
      · linarith
      · linarith
      · linarith
      · simp at hc

/-- C4 witness: a non-finite target, an out-of-bounds target, and an
in-bounds target, each at concrete numbers. -/
theorem claim_C4_witness :
    screenUpdate .nan (.fin 3) 100 100 true 7 9 = (7, 9) ∧
    screenUpdate (.fin 200) (.fin 3) 100 100 true 7 9 = (7, 9) ∧
    screenUpdate (.fin 50) (.fin 3) 100 100 true 7 9 = (smoothStep 7 50, smoothStep 9 3) :=
  ⟨(claim_C4 .nan (.fin 3) 100 100 7 9).1 (Or.inl rfl),
   ((claim_C4 (.fin 200) (.fin 3) 100 100 7 9).2 200 3 rfl rfl).1
     (Or.inr (Or.inl (by norm_num))),
   ((claim_C4 (.fin 50) (.fin 3) 100 100 7 9).2 50 3 rfl rfl).2
     (by norm_num) (by norm_num) (by norm_num) (by norm_num)⟩

/-- C5: `pause` twice equals `pause` once (the second call finds the frame
handle `null` and cancels nothing), `resume` on a running scheduler is a
no-op, every event sequence from the constructor state leaves at most one
outstanding frame callback, and pause–pause–resume from any state
satisfying the scheduler invariant leaves exactly one active frame
callback. -/
theorem claim_C5 :
    (∀ s : SchedState, schedPause (schedPause s) = schedPause s) ∧
    (∀ s : SchedState, s.isPaused = false → schedResume s = s) ∧
    (∀ acts : List SchedAct, (runSchedActs acts schedInit).pending.length ≤ 1) ∧
    (∀ s : SchedState, SchedInv s →
      (schedResume (schedPause (schedPause s))).pending.length = 1) :=
  ⟨schedPause_idem,
   schedResume_of_running,
   fun acts => schedInv_pending_le_one (schedInv_run acts schedInv_init),
   fun _ h => sched_pause_pause_resume h⟩

/-- C5 witness: the scheduler facts at the concrete constructor state. -/
theorem claim_C5_witness :
    schedPause (schedPause schedInit) = schedPause schedInit ∧
    schedResume ⟨false, some 0, 1, [0]⟩ = (⟨false, some 0, 1, [0]⟩ : SchedState) ∧
    (runSchedActs [.pauseA, .pauseA, .resumeA] schedInit).pending.length ≤ 1 ∧
    (schedResume (schedPause (schedPause schedInit))).pending.length = 1 :=
  ⟨claim_C5.1 schedInit,
   claim_C5.2.1 ⟨false, some 0, 1, [0]⟩ rfl,
   claim_C5.2.2.1 [.pauseA, .pauseA, .resumeA],
   claim_C5.2.2.2 schedInit schedInv_init⟩

/-- C6, counterexample: after the valid pointer input `(1/2, 1/2)` the
nose offset target is `15/2`; feeding a `NaN` x-coordinate afterwards
retargets the nose offset to `NaN` — the parallax offsets do not retain
their last valid value, the invalid input is not dropped. -/
theorem claim_C6_counterexample :
    faceParallaxValid.noseX = .fin (15/2) ∧
    (updateMousePosition .nan (.fin 0) faceParallaxValid).noseX = .nan ∧
    JSNum.nan ≠ JSNum.fin (15/2) := by
  refine ⟨?_, rfl, by simp⟩
  show ((JSNum.fin (1/2)).mulQ 15).mulQ 1 = .fin (15/2)
  norm_num [JSNum.mulQ]

/-- C6, amended: pointer input is never validated — every call, finite or
not, overwrites the stored pointer position and retargets all four
parallax offsets, and a non-finite coordinate makes the corresponding
offset targets non-finite instead of retaining the last valid values. -/
theorem claim_C6 :
    ∀ (x y : JSNum) (s : FaceParallax),
      ((updateMousePosition x y s).mouseX = x ∧ (updateMousePosition x y s).mouseY = y) ∧
      (x.isFinite = false →
        (updateMousePosition x y s).noseX.isFinite = false ∧
        (updateMousePosition x y s).mouthX.isFinite = false ∧
        (updateMousePosition x y s).leftEyeX.isFinite = false ∧
        (updateMousePosition x y s).rightEyeX.isFinite = false) ∧
      (y.isFinite = false →
        (updateMousePosition x y s).noseY.isFinite = false ∧
        (updateMousePosition x y s).mouthY.isFinite = false ∧
        (updateMousePosition x y s).leftEyeY.isFinite = false ∧
        (updateMousePosition x y s).rightEyeY.isFinite = false) := by
  intro x y s
  refine ⟨⟨rfl, rfl⟩, fun hx => ?_, fun hy => ?_⟩
  · cases x with
    | fin q => simp [JSNum.isFinite] at hx
    | nan => exact ⟨rfl, rfl, rfl, rfl⟩
    | posInf =>
      refine ⟨?_, ?_, ?_, ?_⟩ <;>
        norm_num [updateMousePosition, JSNum.mulQ, JSNum.isFinite]
    | negInf =>
      refine ⟨?_, ?_, ?_, ?_⟩ <;>
        norm_num [updateMousePosition, JSNum.mulQ, JSNum.isFinite]
  · cases y with
    | fin q => simp [JSNum.isFinite] at hy
    | nan => exact ⟨rfl, rfl, rfl, rfl⟩
    | posInf =>
      refine ⟨?_, ?_, ?_, ?_⟩ <;>
        norm_num [updateMousePosition, JSNum.mulQ, JSNum.neg, JSNum.isFinite]
    | negInf =>
      refine ⟨?_, ?_, ?_, ?_⟩ <;>
        norm_num [updateMousePosition, JSNum.mulQ, JSNum.neg, JSNum.isFinite]

/-- C6 witness: the amended behaviour at concrete non-finite input. -/
theorem claim_C6_witness :
    (updateMousePosition .nan .posInf faceParallaxInit).noseX.isFinite = false ∧
    (updateMousePosition .nan .posInf faceParallaxInit).noseY.isFinite = false :=
  ⟨((claim_C6 .nan .posInf faceParallaxInit).2.1 rfl).1,
   ((claim_C6 .nan .posInf faceParallaxInit).2.2 rfl).1⟩

/-- C7: the per-body update is exactly the composition, in order, of the
centering force, the damping, the periodic sine/cosine drive with
per-body index offset, the per-axis random jitter, and the integration
step that pins the z-component to the constant plane `z = 0`. -/
theorem claim_C7 :
    ∀ (sin cos : ℚ → ℚ) (time : ℚ) (index : ℕ) (r1 r2 : ℚ) (b : Blob),
      updateBlob sin cos time index r1 r2 b =
        integrateStep (jitterStep r1 r2 (driveStep sin cos time index
          (dampingStep (centeringStep b)))) ∧
      (updateBlob sin cos time index r1 r2 b).pos.z = 0 := by
  intro sin cos time index r1 r2 b
  exact ⟨rfl, rfl⟩

/-- C8, counterexample: a single body of strength 0 gives total mass 0,
yet `calculateMassCenter` still updates the smoothed position that frame —
from `(0, 0)` to `(60, 60)` — because only the division is skipped, not
the rest of the computation. -/
theorem claim_C8_counterexample :
    (massTotals ⟨5, 5, 1/2⟩ [zeroBlob]).2 = 0 ∧
    calculateMassCenter 2 1000 1000 true ⟨5, 5, 1/2⟩ [zeroBlob] 0 0 = (60, 60) ∧
    ((60 : ℚ), (60 : ℚ)) ≠ ((0 : ℚ), (0 : ℚ)) := by
  refine ⟨?_, calcMassCenterZero_eq, by norm_num⟩
  norm_num [massTotals, blobWorld, zeroBlob, effectPosition]

/-- C8, amended: when the total mass is zero the guarded division is
skipped — the mass-center keeps the undivided weighted sum, so no
division by zero occurs — but the computation still proceeds to
projection and smoothing and can update the smoothed position that
frame. -/
theorem claim_C8 :
    (∀ (scale : Vec3) (blobs : List Blob),
      (massTotals scale blobs).2 = 0 →
      massCenterVector scale blobs = (massTotals scale blobs).1) ∧
    calculateMassCenter 2 1000 1000 true ⟨5, 5, 1/2⟩ [zeroBlob] 0 0 = (60, 60) := by
  refine ⟨fun scale blobs h => ?_, calcMassCenterZero_eq⟩
  rw [massCenterVector]
  simp [h]

/-- C8 witness: the skipped division at the concrete zero-mass body
list. -/
theorem claim_C8_witness :
    massCenterVector ⟨5, 5, 1/2⟩ [zeroBlob] = (massTotals ⟨5, 5, 1/2⟩ [zeroBlob]).1 :=
  claim_C8.1 ⟨5, 5, 1/2⟩ [zeroBlob]
    (by norm_num [massTotals, blobWorld, zeroBlob, effectPosition])

/-- C9: redundant overlay state transitions are no-ops — re-setting the
current expression performs no animation start and leaves the state
unchanged, and starting the talking animation while a talking timeline
exists leaves the loop and all state untouched. -/
theorem claim_C9 :
    ∀ (s : FaceExprState) (ty : String),
      (s.currentExpression = ty → setExpression ty s = s) ∧
      (s.talkingTimeline.isSome = true → startTalkingAnimation s = s) := by
  intro s ty
  constructor
  · intro h
    simp [setExpression, h]
  · intro h
    simp [startTalkingAnimation, h]

/-- Concrete overlay state: `neutral` expression with a live talking
loop. -/
def faceExprSample : FaceExprState := ⟨"neutral", some 0, some 1, 2, 3⟩

/-- C9 witness: both no-ops at the concrete overlay state. -/
theorem claim_C9_witness :
    setExpression "neutral" faceExprSample = faceExprSample ∧
    startTalkingAnimation faceExprSample = faceExprSample :=
  ⟨(claim_C9 faceExprSample "neutral").1 rfl,
   (claim_C9 faceExprSample "neutral").2 rfl⟩

/-- The per-frame body pass preserves the list length. -/
lemma updateBlobsFrom_length (sin cos : ℚ → ℚ) (time : ℚ) (rand : ℕ → ℚ × ℚ)
    (k : ℕ) (l : List Blob) :
    (updateBlobsFrom sin cos time rand k l).length = l.length := by
  induction l generalizing k with
  | nil => rfl
  | cons b rest ih => simp [updateBlobsFrom, ih]

/-- The per-frame body pass maps the `i`-th body to its own update. -/
lemma updateBlobsFrom_getElem? (sin cos : ℚ → ℚ) (time : ℚ) (rand : ℕ → ℚ × ℚ)
    (k : ℕ) (l : List Blob) (i : ℕ) :
    (updateBlobsFrom sin cos time rand k l)[i]? =
      (l[i]?).map (fun b => updateBlob sin cos time (k + i) (rand (k + i)).1 (rand (k + i)).2 b) := by
  induction l generalizing k i with
  | nil => simp [updateBlobsFrom]
  | cons b rest ih =>
    cases i with
    | zero => simp [updateBlobsFrom]
    | succ j =>
      rw [updateBlobsFrom]
      simp only [List.getElem?_cons_succ]
      rw [ih (k + 1) j]
      have : k + 1 + j = k + (j + 1) := by omega
      rw [this]

/-- C10: a body-update pass keeps the list length and order — the `i`-th
output body is the update of the `i`-th input body — each body's
strength, subtract and color fields are unchanged by the update, and
`initObjects` builds the fixed population of `numBlobs = 8` bodies. -/
theorem claim_C10 :
    ∀ (sin cos : ℚ → ℚ) (time : ℚ) (rand : ℕ → ℚ × ℚ) (blobs : List Blob),
      (updateBlobs sin cos time rand blobs).length = blobs.length ∧
      (∀ i : ℕ, (updateBlobs sin cos time rand blobs)[i]? =
        (blobs[i]?).map (fun b => updateBlob sin cos time i (rand i).1 (rand i).2 b)) ∧
      (∀ (i : ℕ) (r1 r2 : ℚ) (b : Blob),
        (updateBlob sin cos time i r1 r2 b).strength = b.strength ∧
        (updateBlob sin cos time i r1 r2 b).subtract = b.subtract ∧
        (updateBlob sin cos time i r1 r2 b).color = b.color) ∧
      (∀ r : ℕ → ℚ, (initBlobs r).length = numBlobs ∧ numBlobs = 8) := by
  intro sin cos time rand blobs
  refine ⟨updateBlobsFrom_length sin cos time rand 0 blobs, fun i => ?_,
    fun i r1 r2 b => ⟨rfl, rfl, rfl⟩, fun r => ⟨by simp [initBlobs], rfl⟩⟩
  rw [updateBlobs, updateBlobsFrom_getElem? sin cos time rand 0 blobs i]
  simp
